import Mathlib

set_option maxHeartbeats 1000000

/-!
Verification of the input-to-event normalization layer of the musical
instrument sandbox (InputManager plus the keyboard, pointer, MIDI-in and
hand-tracking adapters, and the MusicMath utilities).

JS numbers are modelled by `JSNum`: an exact rational together with the
IEEE special values NaN and signed infinity.  All numeric inputs appearing
in the claims are small integers or simple fractions, for which rational
arithmetic coincides with IEEE double arithmetic; the special values are
needed because `MusicMath.map` can divide by zero.  Signed zero is not
modelled: none of the code paths below distinguish +0 from -0.

Event payload metadata that no claim references (the originating `key`
string, the MIDI `channel`, screen-pixel `x`/`y` echoes, `fingerIndex`)
is omitted from the `MEvent` embedding.
-/

/-- A JavaScript number: NaN, positive or negative Infinity, or a finite
value (exact ℚ). -/
inductive JSNum where
  | nan : JSNum
  | inf : Bool → JSNum
  | num : ℚ → JSNum
deriving DecidableEq

namespace JSNum

/-- JS `isNaN`. -/
def isNaN : JSNum → Bool
  | nan => true
  | _ => false

/-- JS unary minus. -/
def neg : JSNum → JSNum
  | nan => nan
  | inf s => inf (!s)
  | num q => num (-q)

/-- JS `+` on numbers (IEEE addition on extended rationals). -/
def add : JSNum → JSNum → JSNum
  | nan, _ => nan
  | _, nan => nan
  | inf s, inf t => if s = t then inf s else nan
  | inf s, num _ => inf s
  | num _, inf t => inf t
  | num p, num q => num (p + q)

/-- JS `-` on numbers. -/
def sub (a b : JSNum) : JSNum := add a (neg b)

/-- JS `*` on numbers. -/
def mul : JSNum → JSNum → JSNum
  | nan, _ => nan
  | _, nan => nan
  | inf s, inf t => inf (s == t)
  | inf s, num q => if q = 0 then nan else if 0 < q then inf s else inf (!s)
  | num q, inf t => if q = 0 then nan else if 0 < q then inf t else inf (!t)
  | num p, num q => num (p * q)

/-- JS `/` on numbers.  Division of a nonzero finite value by (+)0 yields a
signed infinity, `0/0` yields NaN — exactly the IEEE behaviour that the
`MusicMath.map` NaN guard does and does not catch. -/
def div : JSNum → JSNum → JSNum
  | nan, _ => nan
  | _, nan => nan
  | inf _, inf _ => nan
  | inf s, num q => if 0 ≤ q then inf s else inf (!s)
  | num _, inf _ => num 0
  | num p, num q =>
    if q = 0 then (if p = 0 then nan else if 0 < p then inf true else inf false)
    else num (p / q)

/-- JS `Math.floor`. -/
def floor : JSNum → JSNum
  | nan => nan
  | inf s => inf s
  | num q => num ((Int.floor q : ℤ) : ℚ)

/-- JS `Math.min` (NaN-propagating). -/
def jsMin : JSNum → JSNum → JSNum
  | nan, _ => nan
  | _, nan => nan
  | inf s, inf t => inf (s && t)
  | inf s, num q => if s then num q else inf false
  | num q, inf t => if t then num q else inf false
  | num p, num q => num (min p q)

/-- JS `Math.max` (NaN-propagating). -/
def jsMax : JSNum → JSNum → JSNum
  | nan, _ => nan
  | _, nan => nan
  | inf s, inf t => inf (s || t)
  | inf s, num q => if s then inf true else num q
  | num q, inf t => if t then inf true else num q
  | num p, num q => num (max p q)

instance : Neg JSNum := ⟨neg⟩

instance : Add JSNum := ⟨add⟩

instance : Sub JSNum := ⟨sub⟩

instance : Mul JSNum := ⟨mul⟩

instance : Div JSNum := ⟨div⟩

@[simp] theorem add_def (a b : JSNum) : a + b = add a b := rfl

@[simp] theorem sub_def (a b : JSNum) : a - b = sub a b := rfl

@[simp] theorem mul_def (a b : JSNum) : a * b = mul a b := rfl

@[simp] theorem div_def (a b : JSNum) : a / b = div a b := rfl

@[simp] theorem add_num (a b : ℚ) : add (num a) (num b) = num (a + b) := rfl

@[simp] theorem sub_num (a b : ℚ) : sub (num a) (num b) = num (a - b) := by
  simp [sub, add, neg, sub_eq_add_neg]

@[simp] theorem mul_num (a b : ℚ) : mul (num a) (num b) = num (a * b) := rfl

@[simp] theorem div_num (a b : ℚ) (hb : b ≠ 0) : div (num a) (num b) = num (a / b) := by
  simp [div, hb]

@[simp] theorem floor_num (q : ℚ) : (num q).floor = num ((Int.floor q : ℤ) : ℚ) := rfl

@[simp] theorem jsMin_num (a b : ℚ) : jsMin (num a) (num b) = num (min a b) := rfl

@[simp] theorem jsMax_num (a b : ℚ) : jsMax (num a) (num b) = num (max a b) := rfl

@[simp] theorem isNaN_num (q : ℚ) : (num q).isNaN = false := rfl

/-- `v` is a finite value lying in the unit interval. -/
def inUnit : JSNum → Prop
  | num q => 0 ≤ q ∧ q ≤ 1
  | _ => False

/-- `v` is a finite integer value lying in `[lo, hi]`. -/
def intIn (v : JSNum) (lo hi : ℤ) : Prop :=
  ∃ k : ℤ, v = num (k : ℚ) ∧ lo ≤ k ∧ k ≤ hi

end JSNum

namespace MusicMath

/-- `MusicMath.map` from `src/js/utils/math.js`: affine range mapping with a
guard that returns `outMin` whenever an argument or the computed result is
NaN. -/
def map (value inMin inMax outMin outMax : JSNum) : JSNum :=
  if value.isNaN || inMin.isNaN || inMax.isNaN || outMin.isNaN || outMax.isNaN then
    outMin
  else
    let result := ((value - inMin) / (inMax - inMin)) * (outMax - outMin) + outMin
    if result.isNaN then outMin else result

/-- `MusicMath.clamp` from `src/js/utils/math.js`:
`Math.min(Math.max(value, min), max)`. -/
def clamp (value mn mx : JSNum) : JSNum :=
  JSNum.jsMin (JSNum.jsMax value mn) mx

theorem map_num (v a b c d : ℚ) (hab : b - a ≠ 0) :
    map (.num v) (.num a) (.num b) (.num c) (.num d) =
      .num ((v - a) / (b - a) * (d - c) + c) := by
  simp [map, hab]

theorem clamp_num (v lo hi : ℚ) :
    clamp (.num v) (.num lo) (.num hi) = .num (min (max v lo) hi) := rfl

end MusicMath

/-- C5 counterexample computation: with a degenerate zero-width input range
and `x = 1 ≠ a = 0`, the code computes `(1-0)/0 = +Infinity`, which is not
NaN, so the guard does not fire and `+Infinity` is returned instead of the
output-range minimum `0`. -/
theorem map_degenerate_offEndpoint_is_infinity :
    MusicMath.map (.num 1) (.num 0) (.num 0) (.num 0) (.num 1) = JSNum.inf true ∧
      MusicMath.map (.num 1) (.num 0) (.num 0) (.num 0) (.num 1) ≠ JSNum.num 0 := by
  have h : MusicMath.map (.num 1) (.num 0) (.num 0) (.num 0) (.num 1) = JSNum.inf true := by
    norm_num [MusicMath.map, JSNum.isNaN, JSNum.div, JSNum.mul, JSNum.add]
  refine ⟨h, ?_⟩
  rw [h]
  simp

/-- C5, amended: `map(5,0,10,0,100) = 50`; in the degenerate zero-width
range `map(x,a,a,0,1)` the guard returns the output minimum `0` only when
`x = a` (the `0/0 = NaN` case); for `x > a` (resp. `x < a`) the division by
zero yields `+Infinity` (resp. `-Infinity`), which is returned unchanged. -/
theorem map_spec_amended :
    MusicMath.map (.num 5) (.num 0) (.num 10) (.num 0) (.num 100) = .num 50 ∧
      ∀ x a : ℚ,
        (x = a → MusicMath.map (.num x) (.num a) (.num a) (.num 0) (.num 1) = .num 0) ∧
        (a < x → MusicMath.map (.num x) (.num a) (.num a) (.num 0) (.num 1) = .inf true) ∧
        (x < a → MusicMath.map (.num x) (.num a) (.num a) (.num 0) (.num 1) = .inf false) := by
  refine ⟨?_, fun x a => ⟨?_, ?_, ?_⟩⟩
  · norm_num [MusicMath.map, JSNum.isNaN, JSNum.div, JSNum.mul, JSNum.add]
  · intro h
    subst h
    norm_num [MusicMath.map, JSNum.isNaN, JSNum.div, JSNum.mul, JSNum.add]
  · intro h
    have hxa : x - a ≠ 0 := sub_ne_zero.mpr (ne_of_gt h)
    have hpos : (0:ℚ) < x - a := sub_pos.mpr h
    norm_num [MusicMath.map, JSNum.isNaN, JSNum.div, JSNum.mul, JSNum.add, hxa, hpos]
  · intro h
    have hxa : x - a ≠ 0 := sub_ne_zero.mpr (ne_of_lt h)
    have hneg : ¬ (0:ℚ) < x - a := by
      simp only [not_lt]
      exact le_of_lt (sub_neg.mpr h)
    norm_num [MusicMath.map, JSNum.isNaN, JSNum.div, JSNum.mul, JSNum.add, hxa, hneg]

/-- C5 amended-claim witness at `x = 3, a = 3` and `x = 7, a = 2`. -/
theorem map_spec_amended_witness :
    MusicMath.map (.num 3) (.num 3) (.num 3) (.num 0) (.num 1) = .num 0 ∧
      MusicMath.map (.num 7) (.num 2) (.num 2) (.num 0) (.num 1) = .inf true := by
  refine ⟨(map_spec_amended.2 3 3).1 rfl, (map_spec_amended.2 7 2).2.1 (by norm_num)⟩

/-- The normalized musical events emitted through
`InputManager.emitMusicalEvent`.  Constructors mirror the five payload
shapes built by the adapters; metadata fields that no claim references
(`key`, `channel`, screen-pixel echo coordinates, `fingerIndex`) are
omitted.  `noteOff none` is the pointer continuous-mode release, which
emits a note-off with no `note` field. -/
inductive MEvent where
  | noteOn (note velocity : JSNum)
  | noteOff (note : Option JSNum)
  | continuous (x y pressure : JSNum)
  | trigger (index velocity : JSNum)
  | controlChange (control value : JSNum)
deriving DecidableEq

namespace MEvent

def isNoteOff : MEvent → Bool
  | noteOff _ => true
  | _ => false

def isNoteOn : MEvent → Bool
  | noteOn _ _ => true
  | _ => false

/-- The spec's range invariant on a single event: `note` (also in a
note-off) is an integer in `[0,127]`; `velocity`, `pressure`, the control
`value` and the normalized `continuous` coordinates lie in `[0,1]`. -/
def rangeOK : MEvent → Prop
  | noteOn n v => n.intIn 0 127 ∧ v.inUnit
  | noteOff (some n) => n.intIn 0 127
  | noteOff none => True
  | continuous x y p => x.inUnit ∧ y.inUnit ∧ p.inUnit
  | trigger _ v => v.inUnit
  | controlChange _ v => v.inUnit

end MEvent

/-- JS `String.prototype.toLowerCase`, modelled character-wise (all keys in
the layout tables are ASCII). -/
def jsToLowerCase (s : String) : String := String.mk (s.data.map Char.toLower)

namespace KeyboardInput

/-- `layouts.piano` from `src/unnamed/part_000`. -/
def pianoLayout : List (String × ℕ) :=
  [("z", 48), ("x", 50), ("c", 52), ("v", 53), ("b", 55), ("n", 57), ("m", 59), (",", 60),
   ("s", 49), ("d", 51), ("g", 54), ("h", 56), ("j", 58),
   ("q", 60), ("w", 62), ("e", 64), ("r", 65), ("t", 67), ("y", 69), ("u", 71), ("i", 72),
   ("2", 61), ("3", 63), ("5", 66), ("6", 68), ("7", 70)]

/-- `layouts.drumpad` from `src/unnamed/part_000`. -/
def drumpadLayout : List (String × ℕ) :=
  [("q", 0), ("w", 1), ("e", 2), ("r", 3),
   ("a", 4), ("s", 5), ("d", 6), ("f", 7),
   ("z", 8), ("x", 9), ("c", 10), ("v", 11),
   ("1", 12), ("2", 13), ("3", 14), ("4", 15)]

/-- `layouts.chromatic` from `src/unnamed/part_000` (the `\x27` key is the
ASCII apostrophe, written via its character code). -/
def chromaticLayout : List (String × ℕ) :=
  [("a", 0), ("s", 1), ("d", 2), ("f", 3), ("g", 4), ("h", 5), ("j", 6),
   ("k", 7), ("l", 8), (";", 9), (String.singleton (Char.ofNat 39), 10),
   ("z", 11), ("x", 12)]

/-- The three built-in layouts, fixed at adapter construction
(`config.layout`). -/
inductive KLayout where
  | piano
  | drumpad
  | chromatic
deriving DecidableEq

/-- `this.layouts[this.layout]`. -/
def KLayout.table : KLayout → List (String × ℕ)
  | .piano => pianoLayout
  | .drumpad => drumpadLayout
  | .chromatic => chromaticLayout

/-- The fields of a DOM keydown event that `handleKeyDown` reads. -/
structure KeyDownEvt where
  key : String
  ctrlKey : Bool
  metaKey : Bool
  altKey : Bool
  targetIsTextInput : Bool

/-- `handleKeyDown` from `src/unnamed/part_000`: returns the updated
held-key set (`this.keysPressed`, a JS `Set` modelled as a duplicate-free
list in insertion order) and the emitted events.  `e.preventDefault()` is
a DOM side effect with no bearing on the claims. -/
def handleKeyDown (layout : KLayout) (keysPressed : List String) (e : KeyDownEvt) :
    List String × List MEvent :=
  if e.targetIsTextInput then (keysPressed, [])
  else if e.ctrlKey || e.metaKey || e.altKey then (keysPressed, [])
  else
    let key := jsToLowerCase e.key
    if keysPressed.contains key then (keysPressed, [])
    else
      match (KLayout.table layout).lookup key with
      | some mapping =>
        let kp := keysPressed ++ [key]
        if layout = .drumpad then
          (kp, [MEvent.trigger (.num (mapping : ℚ)) (.num (7/10))])
        else
          (kp, [MEvent.noteOn (.num (mapping : ℚ)) (.num (7/10))])
      | none => (keysPressed, [])

/-- `handleKeyUp` from `src/unnamed/part_000`: deletes the key from the
held set, then emits a note-off whenever the key is mapped and the layout
is not `drumpad` — without checking that the key was ever held. -/
def handleKeyUp (layout : KLayout) (keysPressed : List String) (key0 : String) :
    List String × List MEvent :=
  let key := jsToLowerCase key0
  let kp := keysPressed.erase key
  match (KLayout.table layout).lookup key with
  | some mapping =>
    if layout ≠ .drumpad then (kp, [MEvent.noteOff (some (.num (mapping : ℚ)))])
    else (kp, [])
  | none => (kp, [])

/-- `handleBlur` from `src/unnamed/part_000`: one note-off per held mapped
key (skipped entirely for `drumpad`), then the held set is cleared. -/
def handleBlur (layout : KLayout) (keysPressed : List String) :
    List String × List MEvent :=
  ([], keysPressed.filterMap fun key =>
    match (KLayout.table layout).lookup key with
    | some mapping =>
      if layout ≠ .drumpad then some (MEvent.noteOff (some (.num (mapping : ℚ))))
      else none
    | none => none)

/-- A browser event delivered to the keyboard adapter's three listeners. -/
inductive KeyEvt where
  | down (e : KeyDownEvt)
  | up (key : String)
  | blur

/-- Dispatch of one browser event to the matching handler. -/
def step (layout : KLayout) (st : List String) : KeyEvt → List String × List MEvent
  | .down e => handleKeyDown layout st e
  | .up k => handleKeyUp layout st k
  | .blur => handleBlur layout st

/-- Delivery of a sequence of browser events in order, concatenating the
emitted events. -/
def run (layout : KLayout) (st : List String) : List KeyEvt → List String × List MEvent
  | [] => (st, [])
  | e :: es =>
    let r := step layout st e
    let r2 := run layout r.1 es
    (r2.1, r.2 ++ r2.2)

theorem step_drumpad_no_noteOff (st : List String) (e : KeyEvt) :
    ((step .drumpad st e).2.all fun ev => !ev.isNoteOff) = true := by
  cases e with
  | down e =>
    simp only [step, handleKeyDown]
    split
    · simp
    split
    · simp
    split
    · simp
    split
    · simp [MEvent.isNoteOff]
    · simp
  | up k =>
    simp only [step, handleKeyUp]
    split
    · simp [MEvent.isNoteOff]
    · simp
  | blur =>
    simp only [step, handleBlur, List.all_eq_true]
    intro ev hev
    simp only [List.mem_filterMap] at hev
    obtain ⟨k, hk, hf⟩ := hev
    cases hkl : (KLayout.table .drumpad).lookup k with
    | none => simp [hkl] at hf
    | some m => simp [hkl] at hf

theorem run_drumpad_no_noteOff (st : List String) (evts : List KeyEvt) :
    ((run .drumpad st evts).2.all fun ev => !ev.isNoteOff) = true := by
  induction evts generalizing st with
  | nil => rfl
  | cons e es ih =>
    simp only [run, List.all_append, Bool.and_eq_true]
    exact ⟨step_drumpad_no_noteOff st e, ih _⟩

end KeyboardInput

namespace KeyboardInput

/-- C9: under the `drumpad` layout no sequence of keydown, keyup and blur
events ever causes a note-off event to be emitted — presses emit only
trigger events and there is no release path for this layout. -/
theorem drumpad_never_emits_noteOff (evts : List KeyEvt) :
    ((run .drumpad [] evts).2.all fun ev => !ev.isNoteOff) = true :=
  run_drumpad_no_noteOff [] evts

/-- C8: under the `piano` layout, keydown of `q` (note 60) followed by a
window blur emits NoteOn 60 then exactly one NoteOff 60 and leaves the
held-key set empty; in general, blur emits one note-off per held mapped
key (all emitted events are note-offs) and clears all held state. -/
theorem piano_blur_releases_held_keys :
    run .piano [] [.down ⟨"q", false, false, false, false⟩, .blur] =
      ([], [MEvent.noteOn (.num 60) (.num (7/10)), MEvent.noteOff (some (.num 60))]) ∧
    ∀ st : List String,
      (handleBlur .piano st).1 = [] ∧
      (handleBlur .piano st).2.length =
        (st.filter fun k => ((KLayout.table .piano).lookup k).isSome).length ∧
      ∀ ev ∈ (handleBlur .piano st).2, ev.isNoteOff = true := by
  refine ⟨?_, fun st => ⟨rfl, ?_, ?_⟩⟩
  · simp +decide [run, step, handleKeyDown, handleBlur, List.filterMap,
      show jsToLowerCase "q" = "q" from rfl,
      show (KLayout.table .piano).lookup "q" = some 60 from rfl,
      show (([]:List String).contains "q") = false from rfl]
  · induction st with
    | nil => rfl
    | cons k ks ih =>
      cases h : (KLayout.table .piano).lookup k with
      | none =>
        simp +decide [handleBlur, List.filterMap_cons, List.filter_cons, h] at ih ⊢
        exact ih
      | some m =>
        simp +decide [handleBlur, List.filterMap_cons, List.filter_cons, h] at ih ⊢
        exact ih
  · intro ev hev
    simp only [handleBlur, List.mem_filterMap] at hev
    obtain ⟨k, _, hf⟩ := hev
    cases h : (KLayout.table .piano).lookup k with
    | none => simp [h] at hf
    | some m =>
      simp +decide [h] at hf
      rw [← hf]
      rfl

/-- C8 witness: applying the theorem at the held set `["q"]` — blur over
it emits a note-off for note 60. -/
theorem piano_blur_releases_held_keys_witness :
    (MEvent.noteOff (some (.num 60))).isNoteOff = true := by
  refine (piano_blur_releases_held_keys.2 ["q"]).2.2 (MEvent.noteOff (some (.num 60))) ?_
  simp +decide [handleBlur, List.filterMap,
    show (KLayout.table .piano).lookup "q" = some 60 from rfl]

/-- C10: under a non-drumpad layout, keyup of a layout-mapped key always
emits a note-off for the mapped note, for any held-key state — including
a state in which no matching note-on was ever emitted.  Concretely, a
ctrl-chorded keydown of `q` is swallowed, yet the following keyup of `q`
still emits NoteOff 60. -/
theorem keyup_emits_unbalanced_noteOff :
    (∀ (layout : KLayout) (st : List String) (key0 : String) (mapping : ℕ),
        layout ≠ .drumpad →
        (KLayout.table layout).lookup (jsToLowerCase key0) = some mapping →
        (handleKeyUp layout st key0).2 = [MEvent.noteOff (some (.num (mapping : ℚ)))]) ∧
    run .piano [] [.down ⟨"q", true, false, false, false⟩, .up "q"] =
      ([], [MEvent.noteOff (some (.num 60))]) := by
  constructor
  · intro layout st key0 mapping hne hlk
    simp [handleKeyUp, hlk, hne]
  · simp +decide [run, step, handleKeyDown, handleKeyUp,
      show jsToLowerCase "q" = "q" from rfl,
      show (KLayout.table .piano).lookup "q" = some 60 from rfl,
      show (([]:List String).erase "q") = [] from rfl]

/-- C10 witness: keyup of `q` under `piano` from the empty held set emits
NoteOff 60. -/
theorem keyup_emits_unbalanced_noteOff_witness :
    (handleKeyUp .piano [] "q").2 = [MEvent.noteOff (some (.num 60))] := by
  have h := keyup_emits_unbalanced_noteOff.1 .piano [] "q" 60 (by decide)
    (show (KLayout.table .piano).lookup (jsToLowerCase "q") = some 60 from rfl)
  simpa using h

end KeyboardInput

namespace MidiInput

/-- `handleMidiMessage` from `src/js/input/midi.js`, applied to the three
bytes of `message.data` (status, note, velocity).  The `channel` payload
field (`status et 0x0f`) is metadata no claim references and is omitted
from the emitted events. -/
def handleMidiMessage (status note velocity : ℕ) : List MEvent :=
  let command := status &&& 0xf0
  if command = 0x90 then
    if velocity > 0 then
      [MEvent.noteOn (.num (note : ℚ)) (.num ((velocity : ℚ) / 127))]
    else
      [MEvent.noteOff (some (.num (note : ℚ)))]
  else if command = 0x80 then
    [MEvent.noteOff (some (.num (note : ℚ)))]
  else if command = 0xb0 then
    [MEvent.controlChange (.num (note : ℚ)) (.num ((velocity : ℚ) / 127))]
  else []

/-- C4: the MIDI-in decode, case by status nibble: 0x9n with nonzero
velocity is NoteOn with velocity byte/127; 0x9n with velocity 0 is NoteOff
(never a zero-velocity NoteOn); 0x8n is NoteOff; 0xBn is ControlChange
with value byte/127; every other status nibble emits nothing; and the
concrete bytes [0x90, 60, 0] decode to NoteOff 60. -/
theorem handleMidiMessage_decodes_by_status_nibble :
    (∀ status note velocity : ℕ, status &&& 0xf0 = 0x90 → 0 < velocity →
        handleMidiMessage status note velocity =
          [MEvent.noteOn (.num (note : ℚ)) (.num ((velocity : ℚ) / 127))]) ∧
    (∀ status note : ℕ, status &&& 0xf0 = 0x90 →
        handleMidiMessage status note 0 = [MEvent.noteOff (some (.num (note : ℚ)))]) ∧
    (∀ status note velocity : ℕ, status &&& 0xf0 = 0x80 →
        handleMidiMessage status note velocity = [MEvent.noteOff (some (.num (note : ℚ)))]) ∧
    (∀ status note velocity : ℕ, status &&& 0xf0 = 0xb0 →
        handleMidiMessage status note velocity =
          [MEvent.controlChange (.num (note : ℚ)) (.num ((velocity : ℚ) / 127))]) ∧
    (∀ status note velocity : ℕ,
        status &&& 0xf0 ≠ 0x90 → status &&& 0xf0 ≠ 0x80 → status &&& 0xf0 ≠ 0xb0 →
        handleMidiMessage status note velocity = []) ∧
    handleMidiMessage 0x90 60 0 = [MEvent.noteOff (some (.num 60))] := by
  refine ⟨?_, ?_, ?_, ?_, ?_, ?_⟩
  · intro status note velocity h hv
    simp [handleMidiMessage, h, hv]
  · intro status note h
    simp [handleMidiMessage, h]
  · intro status note velocity h
    have h9 : ¬ (status &&& 0xf0 = 0x90) := by omega
    simp [handleMidiMessage, h, h9]
  · intro status note velocity h
    have h9 : ¬ (status &&& 0xf0 = 0x90) := by omega
    have h8 : ¬ (status &&& 0xf0 = 0x80) := by omega
    simp [handleMidiMessage, h, h9, h8]
  · intro status note velocity h9 h8 hb
    simp [handleMidiMessage, h9, h8, hb]
  · simp +decide [handleMidiMessage]

/-- C4 witness: concrete decodes — a NoteOn for [0x92, 64, 100], a NoteOff
for [0x80, 64, 64], a ControlChange for [0xb0, 1, 127], and silence for
the aftertouch status 0xa0. -/
theorem handleMidiMessage_decodes_witness :
    handleMidiMessage 0x92 64 100 =
      [MEvent.noteOn (.num ((64:ℕ) : ℚ)) (.num (((100:ℕ) : ℚ) / 127))] ∧
    handleMidiMessage 0x80 64 64 = [MEvent.noteOff (some (.num ((64:ℕ) : ℚ)))] ∧
    handleMidiMessage 0xb0 1 127 =
      [MEvent.controlChange (.num ((1:ℕ) : ℚ)) (.num (((127:ℕ) : ℚ) / 127))] ∧
    handleMidiMessage 0xa0 64 64 = [] := by
  refine ⟨?_, ?_, ?_, ?_⟩
  · exact handleMidiMessage_decodes_by_status_nibble.1 0x92 64 100 (by decide) (by decide)
  · exact handleMidiMessage_decodes_by_status_nibble.2.2.1 0x80 64 64 (by decide)
  · exact handleMidiMessage_decodes_by_status_nibble.2.2.2.1 0xb0 1 127 (by decide)
  · exact handleMidiMessage_decodes_by_status_nibble.2.2.2.2.1 0xa0 64 64
      (by decide) (by decide) (by decide)

/-- The listener-registration state of one `MidiInput` instance plus the
ports of the host MIDI access object: `connectedInputs` is the adapter's
id-keyed port map; `portHandlers` is the set of ports whose
`onmidimessage` is currently this adapter's handler; `stateChangeAttached`
says whether `midiAccess.onstatechange` is this adapter's handler. -/
structure MidiState where
  connectedInputs : List ℕ
  portHandlers : List ℕ
  stateChangeAttached : Bool
deriving DecidableEq

/-- JS `Set`/keyed-map insertion (overwriting an existing entry changes
nothing observable here). -/
def addPort (k : ℕ) (l : List ℕ) : List ℕ := if k ∈ l then l else l ++ [k]

/-- `connectInput` from `src/js/input/midi.js`: sets `input.onmidimessage`
to this adapter's handler and stores the port under its id. -/
def connectInput (st : MidiState) (portId : ℕ) : MidiState :=
  { st with portHandlers := addPort portId st.portHandlers,
            connectedInputs := addPort portId st.connectedInputs }

/-- `init` after `requestMIDIAccess` succeeds with the given (nonempty)
input-port list: connects every present port (`connectToInputs`) and
installs the `onstatechange` hot-plug handler. -/
def init (ports : List ℕ) : MidiState :=
  ports.foldl connectInput
    { connectedInputs := [], portHandlers := [], stateChangeAttached := true }

/-- `cleanup` from `src/js/input/midi.js`: nulls `onmidimessage` for every
port currently in `connectedInputs` and clears the map.  It does NOT clear
`midiAccess.onstatechange`. -/
def cleanup (st : MidiState) : MidiState :=
  { st with portHandlers := st.portHandlers.filter (fun p => !st.connectedInputs.contains p),
            connectedInputs := [] }

/-- `handleStateChange` from `src/js/input/midi.js`: on an input port,
`connected` re-runs `connectInput`, `disconnected` only deletes the map
entry (leaving `onmidimessage` set). -/
def handleStateChange (st : MidiState) (portType portState : String) (portId : ℕ) :
    MidiState :=
  if portType = "input" then
    if portState = "connected" then connectInput st portId
    else if portState = "disconnected" then
      { st with connectedInputs := st.connectedInputs.erase portId }
    else st
  else st

/-- A browser-level MIDI callback delivered after the adapter is set up. -/
inductive BrowserEvt where
  | stateChange (portType portState : String) (portId : ℕ)
  | midimessage (portId : ℕ) (status note velocity : ℕ)

/-- Browser dispatch: `onstatechange` fires only while attached;
`onmidimessage` on a port fires only while that port's handler is this
adapter's. -/
def browserStep (st : MidiState) : BrowserEvt → MidiState × List MEvent
  | .stateChange t s p =>
    if st.stateChangeAttached then (handleStateChange st t s p, []) else (st, [])
  | .midimessage p status note velocity =>
    if st.portHandlers.contains p then (st, handleMidiMessage status note velocity)
    else (st, [])

/-- C2 (failing trace): `cleanup` leaves `onstatechange` attached, so after
disable a hot-plugged input port is silently re-connected and a subsequent
note-on message on it IS emitted — a musical event after disable. -/
theorem cleanup_leaves_statechange_dangling :
    (cleanup (init [0])).stateChangeAttached = true ∧
    (browserStep (cleanup (init [0])) (.stateChange "input" "connected" 1)).2 = [] ∧
    (browserStep (browserStep (cleanup (init [0])) (.stateChange "input" "connected" 1)).1
        (.midimessage 1 0x90 60 100)).2 =
      [MEvent.noteOn (.num 60) (.num (100/127))] ∧
    [MEvent.noteOn (JSNum.num 60) (.num (100/127))] ≠ ([] : List MEvent) := by
  refine ⟨rfl, rfl, ?_, by simp⟩
  simp +decide [browserStep, cleanup, init, connectInput, addPort, handleStateChange,
    handleMidiMessage, List.foldl]

end MidiInput

namespace InputManager

/-- The three listener registrations `KeyboardInput.setupListeners` makes
for the instance with id `i`: keydown and keyup on `document`, blur on
`window`.  Each instance's handlers are fresh closures, so the owning
instance id identifies a registration in the DOM's listener table. -/
def keyboardListeners (i : ℕ) : List (ℕ × String × String) :=
  [(i, "document", "keydown"), (i, "document", "keyup"), (i, "window", "blur")]

/-- Manager-plus-DOM state relevant to the keyboard kind: all live DOM
listener registrations, the `inputModules.keyboard` reference (instance id
and that instance's stored `this.listeners`), `activeInputs`, and a
fresh-instance counter. -/
structure MState where
  domListeners : List (ℕ × String × String)
  keyboardModule : Option (ℕ × List (ℕ × String × String))
  activeInputs : List String
  nextId : ℕ
deriving DecidableEq

/-- The state of a freshly constructed `InputManager`. -/
def initialState : MState :=
  { domListeners := [], keyboardModule := none, activeInputs := [], nextId := 0 }

/-- `enableInput('keyboard', config)` from `src/unnamed/part_000`:
constructs a fresh `KeyboardInput` (whose constructor immediately
registers its three listeners) and overwrites `inputModules.keyboard`
with it — performing no cleanup of any previous instance — then adds
`keyboard` to the `activeInputs` set. -/
def enableInputKeyboard (st : MState) : MState :=
  let ls := keyboardListeners st.nextId
  { domListeners := st.domListeners ++ ls,
    keyboardModule := some (st.nextId, ls),
    activeInputs :=
      if "keyboard" ∈ st.activeInputs then st.activeInputs
      else st.activeInputs ++ ["keyboard"],
    nextId := st.nextId + 1 }

/-- `removeEventListener` for each stored (element, event, handler)
triple of one instance. -/
def removeListeners (regs dom : List (ℕ × String × String)) :
    List (ℕ × String × String) :=
  regs.foldl (fun d r => d.erase r) dom

/-- `disableInput('keyboard')`: if a keyboard module reference is present,
run its `cleanup` (which removes exactly the listeners stored in that
instance's `this.listeners`), null the reference, and delete the kind from
`activeInputs`. -/
def disableInputKeyboard (st : MState) : MState :=
  match st.keyboardModule with
  | none => st
  | some m =>
    { st with domListeners := removeListeners m.2 st.domListeners,
              keyboardModule := none,
              activeInputs := st.activeInputs.erase "keyboard" }

/-- C1 (failing trace): enabling the keyboard input twice registers six
live DOM listeners — the first instance's three listeners survive both the
second enable and even a subsequent disable, because `enableInput`
overwrites the module reference without tearing the old instance down. -/
theorem enableInput_twice_leaks_listeners :
    (enableInputKeyboard (enableInputKeyboard initialState)).domListeners.length = 6 ∧
    ((keyboardListeners 0).all fun r =>
      (enableInputKeyboard (enableInputKeyboard initialState)).domListeners.contains r) = true ∧
    ((keyboardListeners 0).all fun r =>
      (disableInputKeyboard
        (enableInputKeyboard (enableInputKeyboard initialState))).domListeners.contains r) = true ∧
    (disableInputKeyboard
      (enableInputKeyboard (enableInputKeyboard initialState))).keyboardModule = none := by
  refine ⟨?_, ?_, ?_, ?_⟩ <;> decide

end InputManager

namespace MouseInput

/-- `xyToNote` from `src/js/input/mouse.js`: normalize x by the viewport
width, map linearly onto [minNote, maxNote], floor, then clamp into
[minNote, maxNote].  The `y` argument is accepted and ignored exactly as
in the source. -/
def xyToNote (minNote maxNote : ℚ) (x y w : JSNum) : JSNum :=
  let normalizedX := x / w
  let note := (MusicMath.map normalizedX (.num 0) (.num 1)
    (.num minNote) (.num maxNote)).floor
  MusicMath.clamp note (.num minNote) (.num maxNote)

/-- `yToVelocity` from `src/js/input/mouse.js`: inverted vertical viewport
fraction clamped into [0.2, 1.0]. -/
def yToVelocity (y h : JSNum) : JSNum :=
  let normalizedY := JSNum.num 1 - y / h
  MusicMath.clamp normalizedY (.num (2/10)) (.num 1)

/-- Trigger-mode `handleClick` (registered for both `click` and
`touchstart`): one note-on per press, note from `xyToNote`, velocity from
`yToVelocity`.  The raw pixel echo fields of the payload are omitted.
`x`, `y` are the pointer's client coordinates; `w`, `h` are
`window.innerWidth` and `window.innerHeight`. -/
def handleClick (minNote maxNote : ℚ) (x y w h : JSNum) : List MEvent :=
  [MEvent.noteOn (xyToNote minNote maxNote x y w) (yToVelocity y h)]

/-- Continuous-mode `handleMove`: suppressed unless pressed; emits a
`continuous` event with viewport-normalized coordinates and pressure 0.7. -/
def handleMoveContinuous (isPressed : Bool) (x y w h : JSNum) : List MEvent :=
  if !isPressed then []
  else [MEvent.continuous (x / w) (y / h) (.num (7/10))]

/-- Continuous-mode `handleDown`: sets `isPressed` and emits a note-on
with fixed velocity 0.7. -/
def handleDownContinuous (minNote maxNote : ℚ) (x y w : JSNum) : Bool × List MEvent :=
  (true, [MEvent.noteOn (xyToNote minNote maxNote x y w) (.num (7/10))])

/-- Continuous-mode `handleUp`: clears `isPressed` and emits a note-off
with no note field. -/
def handleUpContinuous : Bool × List MEvent :=
  (false, [MEvent.noteOff none])

/-- XY-pad-mode `handleMove`: always emits `continuous`, with pressure 1.0
while pressed and 0.5 while not. -/
def handleMoveXYPad (isPressed : Bool) (x y w h : JSNum) : List MEvent :=
  [MEvent.continuous (x / w) (y / h) (.num (if isPressed then 1 else 1/2))]

/-- C7: in trigger mode with minNote=48, maxNote=84, a click at horizontal
fraction 0.5 of the viewport emits exactly one NoteOn with note 66 and
velocity `clamp(1 - y/h, 0.2, 1.0)` (always inside [0.2, 1]); and every
event a trigger-mode handler emits is a NoteOn — no note-off exists on
this path. -/
theorem trigger_click_midpoint_note66 :
    (∀ w h y : ℚ, 0 < w → 0 < h →
      handleClick 48 84 (.num (w/2)) (.num y) (.num w) (.num h) =
        [MEvent.noteOn (.num 66) (.num (min (max (1 - y/h) (2/10)) 1))] ∧
      (2/10 : ℚ) ≤ min (max (1 - y/h) (2/10)) 1 ∧
      min (max (1 - y/h) (2/10)) 1 ≤ 1) ∧
    ∀ (minNote maxNote : ℚ) (x y w h : JSNum),
      ((handleClick minNote maxNote x y w h).all fun ev => ev.isNoteOn) = true := by
  constructor
  · intro w h y hw hh
    have hw0 : w ≠ 0 := ne_of_gt hw
    have hh0 : h ≠ 0 := ne_of_gt hh
    have hx : (w/2) / w = (1/2 : ℚ) := by field_simp; ring
    refine ⟨?_, ?_, ?_⟩
    · simp only [handleClick, xyToNote, yToVelocity, JSNum.div_def, JSNum.sub_def,
        JSNum.div_num _ _ hw0, JSNum.div_num _ _ hh0, JSNum.sub_num, hx]
      rw [MusicMath.map_num _ _ _ _ _ (by norm_num)]
      norm_num [MusicMath.clamp_num]
    · exact le_min (le_max_right _ _) (by norm_num)
    · exact min_le_right _ _
  · intro minNote maxNote x y w h
    rfl

/-- C7 witness at viewport 1000×500 and click position (500, 100). -/
theorem trigger_click_midpoint_note66_witness :
    handleClick 48 84 (.num 500) (.num 100) (.num 1000) (.num 500) =
      [MEvent.noteOn (.num 66) (.num (min (max (1 - (100:ℚ)/500) (2/10)) 1))] := by
  have h := (trigger_click_midpoint_note66.1 1000 500 100 (by norm_num) (by norm_num)).1
  norm_num at h ⊢
  exact h

end MouseInput

namespace MediaPipeInput

/-- JS keyed-object write `this.previousPositions[fingerIndex] = currentY`. -/
def setPos (k : ℕ) (v : ℚ) : List (ℕ × ℚ) → List (ℕ × ℚ)
  | [] => [(k, v)]
  | (k2, v2) :: rest => if k = k2 then (k, v) :: rest else (k2, v2) :: setPos k v rest

/-- `checkLineCrossing` from `src/js/input/mediapipe.js`: reads the
previous y for this fingertip, stores the current y, returns false on the
first observed frame, and otherwise applies the configured trigger policy
(`cross`: previous y strictly above the line and current y at/past it;
`continuous`: current y at/past the line). -/
def checkLineCrossing (triggerMode : String) (lineY : ℚ) (prev : List (ℕ × ℚ))
    (fingerIndex : ℕ) (currentY : ℚ) : List (ℕ × ℚ) × Bool :=
  let prevY := prev.lookup fingerIndex
  let newPrev := setPos fingerIndex currentY prev
  match prevY with
  | none => (newPrev, false)
  | some p =>
    if triggerMode = "cross" then
      (newPrev, if p < lineY ∧ lineY ≤ currentY then true else false)
    else if triggerMode = "continuous" then
      (newPrev, if lineY ≤ currentY then true else false)
    else (newPrev, false)

/-- `triggerNote` from `src/js/input/mediapipe.js`: note is
`floor(map(normalizedX, 0, 1, minNote, maxNote))` with NO clamp, velocity
is fixed 0.7.  The screen-coordinate echo fields and `fingerIndex` payload
metadata are omitted. -/
def triggerNote (minNote maxNote : ℚ) (normalizedX : ℚ) : MEvent :=
  MEvent.noteOn
    ((MusicMath.map (.num normalizedX) (.num 0) (.num 1)
      (.num minNote) (.num maxNote)).floor)
    (.num (7/10))

/-- The per-fingertip body of `processHand`: un-mirror the x coordinate,
run the crossing check (which also updates the stored position), and emit
a note-on when it fires.  Overlay drawing is display-only and omitted. -/
def processFinger (triggerMode : String) (lineY minNote maxNote : ℚ)
    (prev : List (ℕ × ℚ)) (tipIndex : ℕ) (tipX tipY : ℚ) :
    List (ℕ × ℚ) × List MEvent :=
  let flippedX := 1 - tipX
  let r := checkLineCrossing triggerMode lineY prev tipIndex tipY
  (r.1, if r.2 then [triggerNote minNote maxNote flippedX] else [])

/-- Frame-by-frame processing of one fingertip's (x, y) landmark
positions, threading the previous-position state and collecting each
frame's emissions. -/
def runFrames (triggerMode : String) (lineY minNote maxNote : ℚ)
    (prev : List (ℕ × ℚ)) (tipIndex : ℕ) : List (ℚ × ℚ) → List (List MEvent)
  | [] => []
  | f :: fs =>
    let r := processFinger triggerMode lineY minNote maxNote prev tipIndex f.1 f.2
    r.2 :: runFrames triggerMode lineY minNote maxNote r.1 tipIndex fs

/-- C6: in `cross` mode with lineY = 0.5, the fingertip y-sequence
[0.3, 0.6] fires exactly once (on the second, crossing frame) and the
sequence [0.6, 0.7] fires zero times; and a fingertip's first observed
frame never fires, in any mode. -/
theorem cross_mode_fires_on_crossing_edge_only :
    (∀ x1 x2 minNote maxNote : ℚ,
      (runFrames "cross" (1/2) minNote maxNote [] 8 [(x1, 3/10), (x2, 6/10)]).map
        List.length = [0, 1]) ∧
    (∀ x1 x2 minNote maxNote : ℚ,
      (runFrames "cross" (1/2) minNote maxNote [] 8 [(x1, 6/10), (x2, 7/10)]).map
        List.length = [0, 0]) ∧
    (∀ (triggerMode : String) (lineY minNote maxNote : ℚ) (prev : List (ℕ × ℚ))
        (tipIndex : ℕ) (tipX tipY : ℚ),
      prev.lookup tipIndex = none →
      (processFinger triggerMode lineY minNote maxNote prev tipIndex tipX tipY).2 = []) := by
  refine ⟨?_, ?_, ?_⟩
  · intro x1 x2 minNote maxNote
    norm_num [runFrames, processFinger, checkLineCrossing, setPos, List.lookup]
  · intro x1 x2 minNote maxNote
    norm_num [runFrames, processFinger, checkLineCrossing, setPos, List.lookup]
  · intro triggerMode lineY minNote maxNote prev tipIndex tipX tipY hnone
    simp [processFinger, checkLineCrossing, hnone]

/-- C6 witness: a first observed frame (empty previous-position state)
emits nothing even at a y past the line. -/
theorem cross_mode_fires_on_crossing_edge_only_witness :
    (processFinger "cross" (1/2) 48 84 [] 8 (1/4) (9/10)).2 = [] :=
  cross_mode_fires_on_crossing_edge_only.2.2 "cross" (1/2) 48 84 [] 8 (1/4) (9/10) rfl

end MediaPipeInput

theorem inUnit_7_10 : (JSNum.num (7/10)).inUnit := by
  simp only [JSNum.inUnit]
  norm_num

theorem intIn_natCast {n : ℕ} (h : n ≤ 127) : (JSNum.num (n:ℚ)).intIn 0 127 :=
  ⟨(n:ℤ), by norm_cast, Int.natCast_nonneg n, by exact_mod_cast h⟩

theorem div_inUnit (x w : ℚ) (hx : 0 ≤ x) (hxw : x ≤ w) (hw : 0 < w) :
    (JSNum.div (JSNum.num x) (JSNum.num w)).inUnit := by
  rw [JSNum.div_num _ _ (ne_of_gt hw)]
  exact ⟨div_nonneg hx hw.le, (div_le_one hw).mpr hxw⟩

namespace KeyboardInput

theorem lookup_val_le {l : List (String × ℕ)} {bound : ℕ}
    (hl : (l.all fun kv => kv.2 ≤ bound) = true) :
    ∀ {k : String} {n : ℕ}, l.lookup k = some n → n ≤ bound := by
  induction l with
  | nil => intro k n h; cases h
  | cons kv t ih =>
    intro k n h
    obtain ⟨k2, v2⟩ := kv
    simp only [List.all_cons, Bool.and_eq_true, decide_eq_true_eq] at hl
    cases hkk : (k == k2) with
    | true =>
      simp only [List.lookup, hkk] at h
      cases h
      exact hl.1
    | false =>
      simp only [List.lookup, hkk] at h
      exact ih hl.2 h

theorem table_le_127 (layout : KLayout) :
    ((KLayout.table layout).all fun kv => kv.2 ≤ 127) = true := by
  cases layout <;> decide

theorem step_rangeOK (layout : KLayout) (st : List String) (e : KeyEvt) :
    ∀ ev ∈ (step layout st e).2, ev.rangeOK := by
  have hb : ∀ {k : String} {n : ℕ}, (KLayout.table layout).lookup k = some n → n ≤ 127 :=
    fun h => lookup_val_le (table_le_127 layout) h
  cases e with
  | down e =>
    simp only [step, handleKeyDown]
    split
    · simp
    split
    · simp
    split
    · simp
    split
    · rename_i mapping heq
      split
      · intro ev hev
        simp only [List.mem_singleton] at hev
        subst hev
        exact inUnit_7_10
      · intro ev hev
        simp only [List.mem_singleton] at hev
        subst hev
        exact ⟨intIn_natCast (hb heq), inUnit_7_10⟩
    · simp
  | up k =>
    simp only [step, handleKeyUp]
    split
    · rename_i mapping heq
      split
      · intro ev hev
        simp only [List.mem_singleton] at hev
        subst hev
        exact intIn_natCast (hb heq)
      · simp
    · simp
  | blur =>
    intro ev hev
    simp only [step, handleBlur, List.mem_filterMap] at hev
    obtain ⟨k, _, hf⟩ := hev
    cases heq : (KLayout.table layout).lookup k with
    | none => simp [heq] at hf
    | some m =>
      rw [heq] at hf
      by_cases hd : layout = KLayout.drumpad
      · simp [hd] at hf
      · simp only [ne_eq, hd, not_false_eq_true, if_pos, Option.some.injEq] at hf
        rw [← hf]
        exact intIn_natCast (hb heq)

theorem run_rangeOK (layout : KLayout) (st : List String) (evts : List KeyEvt) :
    ∀ ev ∈ (run layout st evts).2, ev.rangeOK := by
  induction evts generalizing st with
  | nil => simp [run]
  | cons e es ih =>
    intro ev hev
    simp only [run, List.mem_append] at hev
    rcases hev with h | h
    · exact step_rangeOK layout st e ev h
    · exact ih _ ev h

end KeyboardInput

namespace MouseInput

theorem xyToNote_intIn (mn mx : ℤ) (h0 : 0 ≤ mn) (hmn : mn ≤ mx) (h127 : mx ≤ 127)
    (x y w : ℚ) (hw : w ≠ 0) :
    (xyToNote (mn:ℚ) (mx:ℚ) (.num x) (.num y) (.num w)).intIn 0 127 := by
  simp only [xyToNote, JSNum.div_def, JSNum.div_num _ _ hw]
  rw [MusicMath.map_num _ _ _ _ _ (by norm_num)]
  simp only [JSNum.floor_num, MusicMath.clamp_num]
  refine ⟨min (max (⌊(x/w - 0) / (1 - 0) * ((mx:ℚ) - (mn:ℚ)) + (mn:ℚ)⌋) mn) mx, ?_, ?_, ?_⟩
  · push_cast
    rfl
  · exact le_min (h0.trans (le_max_right _ _)) (h0.trans hmn)
  · exact (min_le_right _ _).trans h127

theorem yToVelocity_inUnit (y h : ℚ) (hh : h ≠ 0) :
    (yToVelocity (.num y) (.num h)).inUnit := by
  simp only [yToVelocity, JSNum.div_def, JSNum.sub_def, JSNum.div_num _ _ hh,
    JSNum.sub_num, MusicMath.clamp_num, JSNum.inUnit]
  constructor
  · exact le_trans (by norm_num) (le_min (le_max_right _ _) (by norm_num))
  · exact min_le_right _ _

end MouseInput

namespace MidiInput

theorem handleMidiMessage_rangeOK (status note velocity : ℕ)
    (hn : note ≤ 127) (hv : velocity ≤ 127) :
    ∀ ev ∈ handleMidiMessage status note velocity, ev.rangeOK := by
  have hnote : (JSNum.num ((note:ℕ):ℚ)).intIn 0 127 := intIn_natCast hn
  have hvel : (JSNum.num ((velocity:ℚ) / 127)).inUnit := by
    refine ⟨div_nonneg (by positivity) (by norm_num), ?_⟩
    rw [div_le_one (by norm_num)]
    exact_mod_cast hv
  intro ev hev
  simp only [handleMidiMessage] at hev
  split at hev
  · split at hev
    · simp only [List.mem_singleton] at hev
      subst hev
      exact ⟨hnote, hvel⟩
    · simp only [List.mem_singleton] at hev
      subst hev
      exact hnote
  split at hev
  · simp only [List.mem_singleton] at hev
    subst hev
    exact hnote
  split at hev
  · simp only [List.mem_singleton] at hev
    subst hev
    exact hvel
  · simp at hev

end MidiInput

namespace MediaPipeInput

theorem triggerNote_rangeOK (mn mx : ℤ) (h0 : 0 ≤ mn) (hmn : mn ≤ mx) (h127 : mx ≤ 127)
    (xq : ℚ) (hx0 : 0 ≤ xq) (hx1 : xq ≤ 1) :
    (triggerNote (mn:ℚ) (mx:ℚ) xq).rangeOK := by
  simp only [triggerNote]
  rw [MusicMath.map_num _ _ _ _ _ (by norm_num)]
  rw [show ((xq - 0) / (1 - 0) * ((mx:ℚ) - (mn:ℚ)) + (mn:ℚ))
      = xq * ((mx:ℚ) - (mn:ℚ)) + (mn:ℚ) from by ring]
  simp only [JSNum.floor_num]
  have hmm : (0:ℚ) ≤ (mx:ℚ) - (mn:ℚ) := by
    rw [sub_nonneg]
    exact_mod_cast hmn
  have hlo : (mn:ℚ) ≤ xq * ((mx:ℚ) - (mn:ℚ)) + (mn:ℚ) := by
    nlinarith [mul_nonneg hx0 hmm]
  have hhi : xq * ((mx:ℚ) - (mn:ℚ)) + (mn:ℚ) ≤ (mx:ℚ) := by
    nlinarith [mul_le_of_le_one_left hmm hx1]
  have hfl : mn ≤ ⌊xq * ((mx:ℚ) - (mn:ℚ)) + (mn:ℚ)⌋ := Int.le_floor.mpr hlo
  have hfh : ⌊xq * ((mx:ℚ) - (mn:ℚ)) + (mn:ℚ)⌋ ≤ mx := by
    have := Int.floor_le_floor hhi
    rwa [Int.floor_intCast] at this
  exact ⟨⟨⌊xq * ((mx:ℚ) - (mn:ℚ)) + (mn:ℚ)⌋, rfl, h0.trans hfl, hfh.trans h127⟩,
    inUnit_7_10⟩

theorem processFinger_rangeOK (triggerMode : String) (lineY : ℚ) (mn mx : ℤ)
    (h0 : 0 ≤ mn) (hmn : mn ≤ mx) (h127 : mx ≤ 127)
    (prev : List (ℕ × ℚ)) (tipIndex : ℕ) (tipX tipY : ℚ)
    (hx0 : 0 ≤ tipX) (hx1 : tipX ≤ 1) :
    ∀ ev ∈ (processFinger triggerMode lineY (mn:ℚ) (mx:ℚ) prev tipIndex tipX tipY).2,
      ev.rangeOK := by
  intro ev hev
  simp only [processFinger] at hev
  split at hev
  · simp only [List.mem_singleton] at hev
    subst hev
    exact triggerNote_rangeOK mn mx h0 hmn h127 (1 - tipX)
      (by linarith) (by linarith)
  · simp at hev

end MediaPipeInput

/-- C3: every musical event emitted by any input adapter satisfies the
range invariant — notes (including note-off notes) are integers in
[0, 127] and velocity / pressure / normalized coordinates lie in [0, 1] —
for every raw input event in its nominal domain (pointer coordinates
inside the viewport including its border, 7-bit MIDI data bytes,
hand landmarks normalized to [0, 1]) and any note-window configuration
inside [0, 127]. -/
theorem adapters_emit_range_safe_events :
    (∀ (layout : KeyboardInput.KLayout) (st : List String)
        (evts : List KeyboardInput.KeyEvt),
      ∀ ev ∈ (KeyboardInput.run layout st evts).2, ev.rangeOK) ∧
    (∀ mn mx : ℤ, 0 ≤ mn → mn ≤ mx → mx ≤ 127 →
      ∀ x y w h : ℚ, 0 ≤ x → x ≤ w → 0 < w → 0 ≤ y → y ≤ h → 0 < h →
        (∀ ev ∈ MouseInput.handleClick (mn:ℚ) (mx:ℚ)
            (.num x) (.num y) (.num w) (.num h), ev.rangeOK) ∧
        (∀ isPressed : Bool,
          ∀ ev ∈ MouseInput.handleMoveContinuous isPressed
              (.num x) (.num y) (.num w) (.num h), ev.rangeOK) ∧
        (∀ ev ∈ (MouseInput.handleDownContinuous (mn:ℚ) (mx:ℚ)
            (.num x) (.num y) (.num w)).2, ev.rangeOK) ∧
        (∀ ev ∈ MouseInput.handleUpContinuous.2, ev.rangeOK) ∧
        (∀ isPressed : Bool,
          ∀ ev ∈ MouseInput.handleMoveXYPad isPressed
              (.num x) (.num y) (.num w) (.num h), ev.rangeOK)) ∧
    (∀ status note velocity : ℕ, note ≤ 127 → velocity ≤ 127 →
      ∀ ev ∈ MidiInput.handleMidiMessage status note velocity, ev.rangeOK) ∧
    (∀ (triggerMode : String) (lineY : ℚ) (mn mx : ℤ),
        0 ≤ mn → mn ≤ mx → mx ≤ 127 →
      ∀ (prev : List (ℕ × ℚ)) (tipIndex : ℕ) (tipX tipY : ℚ),
        0 ≤ tipX → tipX ≤ 1 →
        ∀ ev ∈ (MediaPipeInput.processFinger triggerMode lineY (mn:ℚ) (mx:ℚ)
            prev tipIndex tipX tipY).2, ev.rangeOK) := by
  refine ⟨KeyboardInput.run_rangeOK, ?_, MidiInput.handleMidiMessage_rangeOK,
    MediaPipeInput.processFinger_rangeOK⟩
  intro mn mx h0 hmn h127 x y w h hx0 hxw hw hy0 hyh hh
  have hw0 : w ≠ 0 := ne_of_gt hw
  have hh0 : h ≠ 0 := ne_of_gt hh
  refine ⟨?_, ?_, ?_, ?_, ?_⟩
  · intro ev hev
    simp only [MouseInput.handleClick, List.mem_singleton] at hev
    subst hev
    exact ⟨MouseInput.xyToNote_intIn mn mx h0 hmn h127 x y w hw0,
      MouseInput.yToVelocity_inUnit y h hh0⟩
  · intro isPressed ev hev
    cases isPressed with
    | false => simp [MouseInput.handleMoveContinuous] at hev
    | true =>
      simp only [MouseInput.handleMoveContinuous, Bool.not_true, Bool.false_eq_true,
        if_false, List.mem_singleton] at hev
      subst hev
      exact ⟨div_inUnit x w hx0 hxw hw, div_inUnit y h hy0 hyh hh, inUnit_7_10⟩
  · intro ev hev
    simp only [MouseInput.handleDownContinuous, List.mem_singleton] at hev
    subst hev
    exact ⟨MouseInput.xyToNote_intIn mn mx h0 hmn h127 x y w hw0, inUnit_7_10⟩
  · intro ev hev
    simp only [MouseInput.handleUpContinuous, List.mem_singleton] at hev
    subst hev
    trivial
  · intro isPressed ev hev
    simp only [MouseInput.handleMoveXYPad, List.mem_singleton] at hev
    subst hev
    refine ⟨div_inUnit x w hx0 hxw hw, div_inUnit y h hy0 hyh hh, ?_⟩
    cases isPressed with
    | false =>
      simp only [Bool.false_eq_true, if_false, JSNum.inUnit]
      norm_num
    | true =>
      simp only [if_pos, JSNum.inUnit]
      norm_num

/-- C3 witness at concrete inputs: a piano keydown of `q`; a trigger-mode
click at (500, 100) in a 1000 by 500 viewport with the default 48..84 note
window; the MIDI bytes [0x90, 60, 100]; a hand-tracking crossing frame. -/
theorem adapters_emit_range_safe_events_witness :
    (MEvent.noteOn (.num 60) (.num (7/10))).rangeOK ∧
    (MEvent.noteOn (MouseInput.xyToNote 48 84 (.num 500) (.num 100) (.num 1000))
      (MouseInput.yToVelocity (.num 100) (.num 500))).rangeOK ∧
    (MEvent.noteOn (.num ((60:ℕ):ℚ)) (.num (((100:ℕ):ℚ)/127))).rangeOK ∧
    (MediaPipeInput.triggerNote 48 84 (3/4)).rangeOK := by
  refine ⟨?_, ?_, ?_, ?_⟩
  · refine adapters_emit_range_safe_events.1 .piano []
      [.down ⟨"q", false, false, false, false⟩] (MEvent.noteOn (.num 60) (.num (7/10))) ?_
    simp +decide [KeyboardInput.run, KeyboardInput.step, KeyboardInput.handleKeyDown,
      show jsToLowerCase "q" = "q" from rfl,
      show (KeyboardInput.KLayout.table .piano).lookup "q" = some 60 from rfl,
      show (([]:List String).contains "q") = false from rfl]
  · have h := (adapters_emit_range_safe_events.2.1 48 84 (by norm_num) (by norm_num)
      (by norm_num) 500 100 1000 500 (by norm_num) (by norm_num) (by norm_num)
      (by norm_num) (by norm_num) (by norm_num)).1
      (MEvent.noteOn (MouseInput.xyToNote ((48:ℤ):ℚ) ((84:ℤ):ℚ) (.num 500) (.num 100)
        (.num 1000)) (MouseInput.yToVelocity (.num 100) (.num 500)))
      (List.mem_singleton.mpr rfl)
    norm_num at h
    exact h
  · refine adapters_emit_range_safe_events.2.2.1 0x90 60 100 (by norm_num) (by norm_num)
      (MEvent.noteOn (.num ((60:ℕ):ℚ)) (.num (((100:ℕ):ℚ)/127))) ?_
    simp +decide [MidiInput.handleMidiMessage]
  · have h := adapters_emit_range_safe_events.2.2.2 "cross" (1/2) 48 84 (by norm_num)
      (by norm_num) (by norm_num) [(8, 3/10)] 8 (1/4) (6/10) (by norm_num) (by norm_num)
      (MediaPipeInput.triggerNote ((48:ℤ):ℚ) ((84:ℤ):ℚ) (1 - 1/4)) ?_
    · norm_num at h
      exact h
    · norm_num [MediaPipeInput.processFinger, MediaPipeInput.checkLineCrossing,
        MediaPipeInput.setPos, List.lookup]
